import Mathlib

/-!
Verification of the NL parser (src/parsing/mod.rs) against its specification.

The parser is embedded shallowly: the input is a `List Char`, every nom
combinator used by the source is reproduced over `PResult`, which mirrors
nom's three-way outcome (`Ok`, recoverable `Err::Error`, unrecoverable
`Err::Failure`).  Recursive parsers take an explicit fuel argument; on
exhausted fuel they return the recoverable error, so any statement proved
for all fuels covers the source behaviour.
-/

namespace NLang

/-- Outcome of a parser: success with remaining input and a value, a
recoverable mismatch (nom `Err::Error`), or an unrecoverable failure
(nom `Err::Failure`). -/
inductive PResult (α : Type) : Type where
  | ok (rest : List Char) (val : α)
  | err
  | fail
deriving Repr, DecidableEq

/-- Sequencing that mirrors Rust's `?` on `IResult`: both error kinds
propagate unchanged. -/
def pbind {α β : Type} (p : PResult α) (f : List Char → α → PResult β) : PResult β :=
  match p with
  | .ok r v => f r v
  | .err => .err
  | .fail => .fail

@[simp] theorem pbind_ok {α β : Type} {p : PResult α} {f : List Char → α → PResult β}
    {rest : List Char} {v : β} :
    pbind p f = .ok rest v ↔ ∃ r a, p = .ok r a ∧ f r a = .ok rest v := by
  cases p with
  | ok r a =>
    simp only [pbind, PResult.ok.injEq]
    constructor
    · intro h
      exact ⟨r, a, ⟨rfl, rfl⟩, h⟩
    · rintro ⟨r2, a2, ⟨rfl, rfl⟩, h⟩
      exact h
  | err => simp [pbind]
  | fail => simp [pbind]

/-- nom `alt` over two alternatives: a recoverable error tries the second
parser, an unrecoverable failure aborts. -/
def palt {α : Type} (p q : List Char → PResult α) (input : List Char) : PResult α :=
  match p input with
  | .ok r v => .ok r v
  | .fail => .fail
  | .err => q input

theorem palt_ok {α : Type} {p q : List Char → PResult α} {input rest : List Char} {v : α}
    (h : palt p q input = .ok rest v) :
    p input = .ok rest v ∨ q input = .ok rest v := by
  unfold palt at h
  cases hp : p input <;> simp [hp] at h
  · left; simp [h]
  · right; exact h

/-- nom `opt`: recoverable errors produce `none` without consuming input,
failures propagate. -/
def popt {α : Type} (p : List Char → PResult α) (input : List Char) : PResult (Option α) :=
  match p input with
  | .ok r v => .ok r (some v)
  | .err => .ok input none
  | .fail => .fail

theorem popt_ok_some {α : Type} {p : List Char → PResult α} {input rest : List Char} {v : α}
    (h : popt p input = .ok rest (some v)) : p input = .ok rest v := by
  unfold popt at h
  cases hp : p input <;> simp [hp] at h
  simp [h]

theorem popt_ok_none {α : Type} {p : List Char → PResult α} {input rest : List Char}
    (h : popt p input = .ok rest none) : rest = input := by
  unfold popt at h
  cases hp : p input <;> simp [hp] at h
  exact h.symm

/-- Prefix test used by `ptag`. -/
def list_starts_with : List Char → List Char → Bool
  | [], _ => true
  | _ :: _, [] => false
  | a :: as_, b :: bs => (a == b) && list_starts_with as_ bs

/-- nom `tag`. -/
def ptag (s : List Char) (input : List Char) : PResult (List Char) :=
  if list_starts_with s input then .ok (input.drop s.length) s else .err

/-- nom `char`. -/
def pchar (c : Char) : List Char → PResult Char
  | [] => .err
  | x :: xs => if x = c then .ok xs c else .err

theorem pchar_ok {c : Char} {input rest : List Char} {v : Char}
    (h : pchar c input = .ok rest v) : input = c :: rest := by
  cases input with
  | nil => simp [pchar] at h
  | cons x xs =>
    simp only [pchar] at h
    split at h
    · rename_i hx
      cases h
      simp [hx]
    · cases h

/-- nom `take_while`: never fails. -/
def ptake_while (p : Char → Bool) (input : List Char) : PResult (List Char) :=
  .ok (input.dropWhile p) (input.takeWhile p)

/-- nom `take_while1`: recoverable error when nothing matches. -/
def ptake_while1 (p : Char → Bool) (input : List Char) : PResult (List Char) :=
  if (input.takeWhile p).isEmpty then .err else .ok (input.dropWhile p) (input.takeWhile p)

/-- Index of the first occurrence of `pat` as a sublist. -/
def find_sub (pat : List Char) : List Char → Option Nat
  | [] => if pat.isEmpty then some 0 else none
  | c :: rest =>
    if list_starts_with pat (c :: rest) then some 0
    else (find_sub pat rest).map (· + 1)

/-- nom (complete) `take_until`: error when the pattern never occurs. -/
def ptake_until (pat : List Char) (input : List Char) : PResult (List Char) :=
  match find_sub pat input with
  | some i => .ok (input.drop i) (input.take i)
  | none => .err

def ppreceded {α β : Type} (p : List Char → PResult α) (q : List Char → PResult β)
    (input : List Char) : PResult β :=
  pbind (p input) fun i _ => q i

def pterminated {α β : Type} (p : List Char → PResult α) (q : List Char → PResult β)
    (input : List Char) : PResult α :=
  pbind (p input) fun i v => pbind (q i) fun i _ => .ok i v

def pdelimited {α β γ : Type} (l : List Char → PResult α) (m : List Char → PResult β)
    (r : List Char → PResult γ) (input : List Char) : PResult β :=
  pbind (l input) fun i _ => pbind (m i) fun i v => pbind (r i) fun i _ => .ok i v

/-- nom `recognize`: returns the consumed portion of the input. -/
def precognize {α : Type} (p : List Char → PResult α) (input : List Char) :
    PResult (List Char) :=
  match p input with
  | .ok r _ => .ok r (input.take (input.length - r.length))
  | .err => .err
  | .fail => .fail

/-- Loop body of nom `many0`; the fuel is one more than the input length,
which suffices because the zero-consumption guard forces progress. -/
def pmany0_go {α : Type} (p : List Char → PResult α) : Nat → List Char → PResult (List α)
  | 0, _ => .err
  | fuel + 1, input =>
    match p input with
    | .err => .ok input []
    | .fail => .fail
    | .ok rest v =>
      if rest.length = input.length then .err
      else
        match pmany0_go p fuel rest with
        | .ok r vs => .ok r (v :: vs)
        | .err => .err
        | .fail => .fail

/-- nom `many0`, including its guard that a success consuming nothing is an
error. -/
def pmany0 {α : Type} (p : List Char → PResult α) (input : List Char) : PResult (List α) :=
  pmany0_go p (input.length + 1) input

/-- nom `many1`: the first iteration must succeed (no guard), then the
`many0` loop runs. -/
def pmany1 {α : Type} (p : List Char → PResult α) (input : List Char) : PResult (List α) :=
  match p input with
  | .err => .err
  | .fail => .fail
  | .ok rest v =>
    match pmany0 p rest with
    | .ok r vs => .ok r (v :: vs)
    | .err => .err
    | .fail => .fail

/- ### Character classes (all ASCII-based, as in nom) -/

def is_multispace (c : Char) : Bool :=
  c.toNat = 32 || c.toNat = 9 || c.toNat = 10 || c.toNat = 13

def is_alpha_ascii (c : Char) : Bool :=
  (65 ≤ c.toNat && c.toNat ≤ 90) || (97 ≤ c.toNat && c.toNat ≤ 122)

def is_digit_ascii (c : Char) : Bool :=
  48 ≤ c.toNat && c.toNat ≤ 57

def is_alphanumeric_ascii (c : Char) : Bool :=
  is_alpha_ascii c || is_digit_ascii c

/-- nom `multispace0`. -/
def multispace0 (input : List Char) : PResult (List Char) :=
  ptake_while is_multispace input

/-- nom `alphanumeric0`. -/
def alphanumeric0 (input : List Char) : PResult (List Char) :=
  ptake_while is_alphanumeric_ascii input

/-- nom `alphanumeric1`. -/
def alphanumeric1 (input : List Char) : PResult (List Char) :=
  ptake_while1 is_alphanumeric_ascii input

/-- nom `alpha1`. -/
def alpha1 (input : List Char) : PResult (List Char) :=
  ptake_while1 is_alpha_ascii input

/- ### AST data model (from src/parsing/mod.rs) -/

/-- `NLType`: borrowed names are the character slices of the source. -/
inductive NLType : Type where
  | None
  | Boolean
  | I8 | I16 | I32 | I64
  | U8 | U16 | U32 | U64
  | F32 | F64
  | OwnedString
  | BorrowedString
  | Tuple (elems : List NLType)
  | OwnedStruct (name : List Char)
  | ReferencedStruct (name : List Char)
  | MutableReferencedStruct (name : List Char)
  | OwnedTrait (name : List Char)
  | ReferencedTrait (name : List Char)
  | MutableReferencedTrait (name : List Char)
  | SelfReference
  | MutableSelfReference

structure OpVariable : Type where
  name : List Char

/-- `OpConstant`.  The f64 payload of `Float` is kept as the literal text;
its convertibility is checked by `parse_f64_ok` below. -/
inductive OpConstant : Type where
  | Boolean (b : Bool)
  | Integer (value : Int) (cast : NLType)
  | Float (lit : List Char) (cast : NLType)
  | String (contents : List Char)

mutual

inductive NLOperation : Type where
  | Block (block : NLBlock)
  | Constant (c : OpConstant)
  | Assign (a : OpAssignment)
  | Tuple (ops : List NLOperation)
  | Operator (o : OpOperator)

inductive NLBlock : Type where
  | mk (operations : List NLOperation)

inductive OpAssignment : Type where
  | mk (is_new : Bool) (to_assign : List OpVariable) (type_assignment : NLType)
       (assignment : NLOperation)

inductive OpOperator : Type where
  | CompareEqual (a b : NLOperation)
  | CompareNotEqual (a b : NLOperation)
  | CompareGreater (a b : NLOperation)
  | CompareLess (a b : NLOperation)
  | CompareGreaterEqual (a b : NLOperation)
  | CompareLessEqual (a b : NLOperation)
  | LogicalNegate (a : NLOperation)
  | LogicalAnd (a b : NLOperation)
  | LogicalOr (a b : NLOperation)
  | LogicalXor (a b : NLOperation)
  | BitAnd (a b : NLOperation)
  | BitOr (a b : NLOperation)
  | BitXor (a b : NLOperation)
  | ArithmeticNegate (a : NLOperation)
  | BitNegate (a : NLOperation)
  | BitLeftShift (a b : NLOperation)
  | BitRightShift (a b : NLOperation)
  | PropError (a : NLOperation)
  | ArithmeticMod (a b : NLOperation)
  | ArithmeticAdd (a b : NLOperation)
  | ArithmeticSub (a b : NLOperation)
  | ArithmeticMul (a b : NLOperation)
  | ArithmeticDiv (a b : NLOperation)

end

def NLBlock.operations : NLBlock → List NLOperation
  | .mk ops => ops

structure NLStructVariable : Type where
  name : List Char
  my_type : NLType

structure NLArgument : Type where
  name : List Char
  nl_type : NLType

structure NLFunction : Type where
  name : List Char
  arguments : List NLArgument
  return_type : NLType
  block : Option NLBlock

inductive NLEncapsulationBlock : Type where
  | Some (block : NLBlock)
  | None
  | Default

structure NLGetter : Type where
  name : List Char
  args : List NLArgument
  nl_type : NLType
  block : NLEncapsulationBlock

structure NLSetter : Type where
  name : List Char
  args : List NLArgument
  block : NLEncapsulationBlock

inductive NLImplementor : Type where
  | Method (m : NLFunction)
  | Getter (g : NLGetter)
  | Setter (s : NLSetter)

structure NLImplementation : Type where
  name : List Char
  implementors : List NLImplementor

structure NLStruct : Type where
  name : List Char
  variables_ : List NLStructVariable
  implementations : List NLImplementation

structure NLTrait : Type where
  name : List Char
  implementors : List NLImplementor

inductive RootDeceleration : Type where
  | Struct (s : NLStruct)
  | Trait (t : NLTrait)
  | Function (f : NLFunction)

structure NLFile : Type where
  name : List Char
  structs : List NLStruct
  traits : List NLTrait
  functions : List NLFunction

/- ### Lexical primitives -/

/-- `read_comment`. -/
def read_comment (input : List Char) : PResult (List Char) :=
  palt
    (ppreceded (ptag ['/', '/'])
      (pterminated (ptake_until ['\n']) (ptag ['\n'])))
    (ppreceded (ptag ['/', '*'])
      (pterminated (ptake_until ['*', '/']) (ptag ['*', '/'])))
    input

/-- `read_comments` (`recognize(many0_count(terminated(read_comment, multispace0)))`). -/
def read_comments (input : List Char) : PResult (List Char) :=
  precognize (pmany0 (pterminated read_comment multispace0)) input

/-- `blank`. -/
def blank (input : List Char) : PResult Unit :=
  pbind (ppreceded multispace0 read_comments input) fun i _ => .ok i ()

/-- `is_name`: underscore or an ASCII letter. -/
def is_name (c : Char) : Bool :=
  c.toNat = 95 || (97 ≤ c.toNat && c.toNat ≤ 122) || (65 ≤ c.toNat && c.toNat ≤ 90)

/-- `read_struct_or_trait_name`. -/
def read_struct_or_trait_name (input : List Char) : PResult (List Char) :=
  pdelimited blank alphanumeric1 blank input

/-- `is_method_char`: underscore, or `nom::character::is_alphanumeric` on the
char truncated to a byte (`input as u8`). -/
def is_method_char (c : Char) : Bool :=
  c.toNat = 95 ||
    ((48 ≤ c.toNat % 256 && c.toNat % 256 ≤ 57) ||
     (65 ≤ c.toNat % 256 && c.toNat % 256 ≤ 90) ||
     (97 ≤ c.toNat % 256 && c.toNat % 256 ≤ 122))

/-- `read_method_name`. -/
def read_method_name (input : List Char) : PResult (List Char) :=
  pdelimited blank (ptake_while1 is_method_char) blank input

/-- `read_variable_name`. -/
def read_variable_name (input : List Char) : PResult (List Char) :=
  ptake_while1 is_name input

/-- `read_tuple_of_variable_names`. -/
def read_tuple_of_variable_names (input : List Char) : PResult (List (List Char)) :=
  pbind (pdelimited (pchar '(') (ptake_while (fun c => c != ')')) (pchar ')') input)
    fun input tuple_str =>
  pbind (pmany0 (pterminated read_variable_name
          (fun i => pbind (blank i) fun i _ => pbind (pchar ',' i) fun i _ => blank i))
          tuple_str)
    fun tuple_str vars =>
  pbind (popt (pterminated read_variable_name blank) tuple_str)
    fun _ last_var =>
  .ok input (match last_var with
             | some v => vars ++ [v]
             | none => vars)

/-- `read_single_variable`. -/
def read_single_variable (input : List Char) : PResult (List (List Char)) :=
  pbind (read_variable_name input) fun input name => .ok input [name]

/- ### Numeric conversion (Rust `str::parse`) -/

def digits_go (acc : Nat) : List Char → Option Nat
  | [] => some acc
  | c :: cs => if is_digit_ascii c then digits_go (acc * 10 + (c.toNat - 48)) cs else none

/-- Value of a non-empty all-digit string. -/
def digits_val (s : List Char) : Option Nat :=
  match s with
  | [] => none
  | _ => digits_go 0 s

/-- Rust `i64::from_str` on the characters reachable here (digits, `-`,
`.`); range-checked. -/
def parse_i64 (s : List Char) : Option Int :=
  match s with
  | '-' :: rest =>
    match digits_val rest with
    | some v => if v ≤ 9223372036854775808 then some (-(v : Int)) else none
    | none => none
  | '+' :: rest =>
    match digits_val rest with
    | some v => if v ≤ 9223372036854775807 then some (v : Int) else none
    | none => none
  | _ =>
    match digits_val s with
    | some v => if v ≤ 9223372036854775807 then some (v : Int) else none
    | none => none

/-- Rust `f64::from_str` acceptance on the digit/dot/hyphen alphabet that
`is_number` admits: optional sign, then digits with at most one dot and at
least one digit overall. -/
def parse_f64_ok (s : List Char) : Bool :=
  let t := match s with
    | [] => ([] : List Char)
    | c :: rest => if c == '+' || c == '-' then rest else c :: rest
  let before := t.takeWhile (fun c => c != '.')
  let after1 := t.dropWhile (fun c => c != '.')
  match after1 with
  | [] => !before.isEmpty && before.all is_digit_ascii
  | _ :: after =>
    (!before.isEmpty || !after.isEmpty) && before.all is_digit_ascii &&
      after.all is_digit_ascii

/- ### Type grammar -/

/-- `identify_struct_or_trait_type`. -/
def identify_struct_or_trait_type (input : List Char) : PResult NLType :=
  pbind (popt (pchar '&') input) fun input is_ref? =>
  pbind (blank input) fun input _ =>
  pbind (if is_ref?.isSome then
           pbind (popt (ptag ['m', 'u', 't']) input) fun input is_mut? =>
           pbind (blank input) fun input _ =>
           .ok input is_mut?.isSome
         else
           .ok input false) fun input is_mutable =>
  pbind (popt (ptag ['d', 'y', 'n']) input) fun input dyn? =>
  pbind (read_struct_or_trait_name input) fun input name =>
  if dyn?.isNone then
    if is_ref?.isSome then
      if is_mutable then .ok input (NLType.MutableReferencedStruct name)
      else .ok input (NLType.ReferencedStruct name)
    else .ok input (NLType.OwnedStruct name)
  else
    if is_ref?.isSome then
      if is_mutable then .ok input (NLType.MutableReferencedTrait name)
      else .ok input (NLType.ReferencedTrait name)
    else .ok input (NLType.OwnedTrait name)

/-- `read_variable_type`. -/
def read_variable_type (input0 : List Char) : PResult NLType :=
  pbind (blank input0) fun input _ =>
  pbind (alphanumeric0 input) fun input_new type_name =>
  if type_name = ['i', '8'] then .ok input_new NLType.I8
  else if type_name = ['i', '1', '6'] then .ok input_new NLType.I16
  else if type_name = ['i', '3', '2'] then .ok input_new NLType.I32
  else if type_name = ['i', '6', '4'] then .ok input_new NLType.I64
  else if type_name = ['u', '8'] then .ok input_new NLType.U8
  else if type_name = ['u', '1', '6'] then .ok input_new NLType.U16
  else if type_name = ['u', '3', '2'] then .ok input_new NLType.U32
  else if type_name = ['u', '6', '4'] then .ok input_new NLType.U64
  else if type_name = ['f', '3', '2'] then .ok input_new NLType.F32
  else if type_name = ['f', '6', '4'] then .ok input_new NLType.F64
  else if type_name = ['b', 'o', 'o', 'l'] then .ok input_new NLType.Boolean
  else if type_name = ['s', 't', 'r'] then .ok input_new NLType.OwnedString
  else
    pbind (blank input) fun input_new2 _ =>
    pbind (popt (ppreceded blank (ptag ['s', 't', 'r'])) input_new2) fun input_new3 s? =>
    if s?.isSome then .ok input_new3 NLType.BorrowedString
    else identify_struct_or_trait_type input

/-- `read_cast`. -/
def read_cast (input : List Char) : PResult NLType :=
  pbind (blank input) fun input _ =>
  pbind (ptag ['a', 's'] input) fun input _ =>
  pbind (blank input) fun input _ =>
  read_variable_type input

/- ### Constants -/

/-- `read_boolean_constant`. -/
def read_boolean_constant (input : List Char) : PResult OpConstant :=
  pbind (alpha1 input) fun input v =>
  if v = ['t', 'r', 'u', 'e'] then .ok input (OpConstant.Boolean true)
  else if v = ['f', 'a', 'l', 's', 'e'] then .ok input (OpConstant.Boolean false)
  else .err

/-- `is_number`. -/
def is_number (c : Char) : Bool :=
  c.toNat = 46 || c.toNat = 45 || (48 ≤ c.toNat && c.toNat ≤ 57)

/-- `read_numerical_constant`. -/
def read_numerical_constant (input : List Char) : PResult OpConstant :=
  pbind (pterminated (ptake_while1 is_number) blank input) fun input number =>
  pbind (popt read_cast input) fun input cast? =>
  let cast := match cast? with
    | some c => c
    | none => NLType.None
  if !(number.contains '.') then
    match parse_i64 number with
    | some v => .ok input (OpConstant.Integer v cast)
    | none => .err
  else
    if parse_f64_ok number then .ok input (OpConstant.Float number cast) else .err

/-- `read_string_constant`. -/
def read_string_constant (input : List Char) : PResult OpConstant :=
  pbind (blank input) fun input _ =>
  pbind (pdelimited (pchar '"') (ptake_while (fun c => c != '"')) (pchar '"') input)
    fun input s =>
  .ok input (OpConstant.String s)

/-- `read_constant`. -/
def read_constant (input : List Char) : PResult NLOperation :=
  pbind (palt read_boolean_constant (palt read_numerical_constant read_string_constant)
          input) fun input c =>
  .ok input (NLOperation.Constant c)

/- ### Expression parsers.

Each member of the mutually recursive expression family is first defined as
a plain function parameterised by the operation parser it recurses
through; `read_operation` then ties the knot with an explicit fuel. -/

/-- `take_operator_symbol`. -/
def is_operator_symbol (c : Char) : Bool :=
  c == '=' || c == '!' || c == '~' || c == '|' || c == '&' || c == '^' || c == '%' ||
  c == '+' || c == '-' || c == '*' || c == '/' || c == '<' || c == '>'

def take_operator_symbol (input : List Char) : PResult (List Char) :=
  ptake_while1 is_operator_symbol input

/-- `read_tuple`, parameterised by the operation parser. -/
def read_tuple_p (rdop : List Char → PResult NLOperation) (input : List Char) :
    PResult NLOperation :=
  pbind (blank input) fun input _ =>
  pbind (pdelimited (pchar '(') (ptake_while (fun c => c != ')')) (pchar ')') input)
    fun input tuple_str =>
  pbind (pmany0 (pterminated rdop
          (fun i => pbind (blank i) fun i _ => pbind (pchar ',' i) fun i _ => blank i))
          tuple_str)
    fun tuple_str tup =>
  pbind (popt (pterminated rdop blank) tuple_str) fun _ last_item =>
  .ok input (NLOperation.Tuple (match last_item with
                                | some item => tup ++ [item]
                                | none => tup))

/-- `read_assignment`, parameterised by the operation parser. -/
def read_assignment_p (rdop : List Char → PResult NLOperation) (input : List Char) :
    PResult NLOperation :=
  pbind (blank input) fun input _ =>
  pbind (popt (ptag ['l', 'e', 't']) input) fun input is_new? =>
  pbind (blank input) fun input _ =>
  pbind (palt read_tuple_of_variable_names read_single_variable input) fun input names =>
  pbind (blank input) fun input _ =>
  pbind (popt (pchar ':') input) fun input colon? =>
  pbind (if colon?.isSome then read_variable_type input else .ok input NLType.None)
    fun input type_assignment =>
  pbind (blank input) fun input _ =>
  pbind (pchar '=' input) fun input _ =>
  pbind (blank input) fun input _ =>
  pbind (blank input) fun input _ =>
  pbind (rdop input) fun input assignment =>
  .ok input (NLOperation.Assign
    (OpAssignment.mk is_new?.isSome (names.map OpVariable.mk) type_assignment assignment))

/-- `read_urinary_operator`, parameterised by the operation parser (the
source reads the operand with the full `read_operation`). -/
def read_urinary_operator_p (rdop : List Char → PResult NLOperation) (input : List Char) :
    PResult NLOperation :=
  pbind (blank input) fun input _ =>
  pbind (take_operator_symbol input) fun input op =>
  pbind (blank input) fun input _ =>
  pbind (rdop input) fun input operand =>
  match op with
  | ['!'] => .ok input (NLOperation.Operator (OpOperator.LogicalNegate operand))
  | ['~'] => .ok input (NLOperation.Operator (OpOperator.BitNegate operand))
  | ['-'] => .ok input (NLOperation.Operator (OpOperator.ArithmeticNegate operand))
  | _ => .fail

/-- The `match operator` arms of `read_binary_operator`, as a symbol-to-
constructor table (exact-equality dispatch, order irrelevant). -/
def binary_operator_table : List (List Char × (NLOperation → NLOperation → OpOperator)) :=
  [(['=', '='], OpOperator.CompareEqual),
   (['!', '='], OpOperator.CompareNotEqual),
   (['>', '='], OpOperator.CompareGreaterEqual),
   (['<', '='], OpOperator.CompareLessEqual),
   (['>'], OpOperator.CompareGreater),
   (['<'], OpOperator.CompareLess),
   (['&', '&'], OpOperator.LogicalAnd),
   (['|', '|'], OpOperator.LogicalOr),
   (['^', '^'], OpOperator.LogicalXor),
   (['&'], OpOperator.BitAnd),
   (['|'], OpOperator.BitOr),
   (['^'], OpOperator.BitXor),
   (['<', '<'], OpOperator.BitLeftShift),
   (['>', '>'], OpOperator.BitRightShift),
   (['+'], OpOperator.ArithmeticAdd),
   (['-'], OpOperator.ArithmeticSub),
   (['%'], OpOperator.ArithmeticMod),
   (['/'], OpOperator.ArithmeticDiv),
   (['*'], OpOperator.ArithmeticMul)]

/-- The constructor selected by an operator-symbol token, `none` for an
unknown symbol. -/
def binary_operator_for (sym : List Char) :
    Option (NLOperation → NLOperation → OpOperator) :=
  (binary_operator_table.find? (fun e => e.1 == sym)).map (fun e => e.2)

/-- `read_binary_operator`, parameterised by the sub-operation parser used
for both operands; an unknown symbol is an unrecoverable failure. -/
def read_binary_operator_p (rdsub : List Char → PResult NLOperation) (input : List Char) :
    PResult NLOperation :=
  pbind (blank input) fun input _ =>
  pbind (rdsub input) fun input operand_a =>
  pbind (blank input) fun input _ =>
  pbind (take_operator_symbol input) fun input op =>
  pbind (blank input) fun input _ =>
  pbind (rdsub input) fun input operand_b =>
  match binary_operator_for op with
  | some ctor => .ok input (NLOperation.Operator (ctor operand_a operand_b))
  | none => .fail

/-- `read_code_block`, parameterised by the operation parser. -/
def read_code_block_p (rdop : List Char → PResult NLOperation) (input : List Char) :
    PResult NLOperation :=
  pbind (blank input) fun input _ =>
  pbind (pchar '{' input) fun input _ =>
  pbind (pmany0 rdop input) fun input operations =>
  pbind (blank input) fun input _ =>
  pbind (pchar '}' input) fun input _ =>
  .ok input (NLOperation.Block (NLBlock.mk operations))

/-- `read_sub_operation`: the full alternation minus the binary-operator
alternative. -/
def read_sub_operation_p (rdop : List Char → PResult NLOperation) (input : List Char) :
    PResult NLOperation :=
  palt (read_code_block_p rdop)
    (palt (read_tuple_p rdop)
      (palt (read_assignment_p rdop)
        (palt read_constant (read_urinary_operator_p rdop)))) input

/-- `read_operation`: code block, tuple, assignment, binary operator,
constant, unary operator — ordered backtracking alternation. -/
def read_operation : Nat → List Char → PResult NLOperation
  | 0, _ => .err
  | fuel + 1, input =>
    palt (read_code_block_p (read_operation fuel))
      (palt (read_tuple_p (read_operation fuel))
        (palt (read_assignment_p (read_operation fuel))
          (palt (read_binary_operator_p (read_sub_operation_p (read_operation fuel)))
            (palt read_constant (read_urinary_operator_p (read_operation fuel))))))
      input

def read_sub_operation (fuel : Nat) : List Char → PResult NLOperation :=
  read_sub_operation_p (read_operation fuel)

def read_code_block (fuel : Nat) : List Char → PResult NLOperation :=
  read_code_block_p (read_operation fuel)

def read_tuple (fuel : Nat) : List Char → PResult NLOperation :=
  read_tuple_p (read_operation fuel)

def read_assignment (fuel : Nat) : List Char → PResult NLOperation :=
  read_assignment_p (read_operation fuel)

def read_urinary_operator (fuel : Nat) : List Char → PResult NLOperation :=
  read_urinary_operator_p (read_operation fuel)

def read_binary_operator (fuel : Nat) : List Char → PResult NLOperation :=
  read_binary_operator_p (read_sub_operation fuel)

/- ### Declaration parsers -/

/-- `read_argument_declaration`; the fall-through branch distinguishes an
unrecoverable failure (non-empty input that is not an argument) from a
recoverable one (end of the argument slice). -/
def read_argument_declaration (input0 : List Char) : PResult NLArgument :=
  pbind (blank input0) fun input _ =>
  pbind (popt read_variable_name input) fun input name? =>
  match name? with
  | some name =>
    pbind (blank input) fun input _ =>
    pbind (pchar ':' input) fun input _ =>
    pbind (blank input) fun input _ =>
    pbind (read_variable_type input) fun input nl_type =>
    pbind (blank input) fun input _ =>
    .ok input (NLArgument.mk name nl_type)
  | none =>
    pbind (popt (pchar '&') input) fun post_input is_ref? =>
    pbind
      (if is_ref?.isSome then
        pbind (blank post_input) fun inp _ =>
        pbind (popt (ptag ['s', 'e', 'l', 'f']) inp) fun inp self? =>
        if self?.isSome then
          .ok inp (some (NLArgument.mk ['s', 'e', 'l', 'f'] NLType.SelfReference))
        else
          pbind (popt (ptag ['m', 'u', 't']) inp) fun inp mut? =>
          if mut?.isSome then
            pbind (blank inp) fun inp _ =>
            pbind (ptag ['s', 'e', 'l', 'f'] inp) fun inp _ =>
            .ok inp (some (NLArgument.mk ['s', 'e', 'l', 'f'] NLType.MutableSelfReference))
          else .ok inp none
      else .ok input none) fun inp found? =>
    match found? with
    | some arg => .ok inp arg
    | none => if input.isEmpty then .err else .fail

/-- `read_argument_deceleration_list`. -/
def read_argument_deceleration_list (input : List Char) : PResult (List NLArgument) :=
  pbind (pdelimited (pchar '(') (ptake_while (fun c => c != ')')) (pchar ')') input)
    fun input arg_input =>
  pbind (pmany0 (pterminated read_argument_declaration (pchar ',')) arg_input)
    fun arg_input arguments =>
  pbind (popt (pterminated read_argument_declaration blank) arg_input) fun _ last_arg =>
  .ok input (match last_arg with
             | some arg => arguments ++ [arg]
             | none => arguments)

/-- `read_return_type`. -/
def read_return_type (input : List Char) : PResult NLType :=
  pbind (blank input) fun input _ =>
  pbind (popt (ptag ['-', '>']) input) fun input arrow? =>
  if arrow?.isSome then
    pbind (blank input) fun input _ =>
    pbind (read_variable_type input) fun input nl_type =>
    pbind (blank input) fun input _ =>
    .ok input nl_type
  else .ok input NLType.None

/-- Everything `read_method` consumes before its body-or-semicolon
decision. -/
def read_method_head (fuel : Nat) (input : List Char) : PResult NLFunction :=
  pbind (blank input) fun input _ =>
  pbind (ptag ['m', 'e', 't'] input) fun input _ =>
  pbind (blank input) fun input _ =>
  pbind (read_method_name input) fun input name =>
  pbind (blank input) fun input _ =>
  pbind (read_argument_deceleration_list input) fun input args =>
  pbind (blank input) fun input _ =>
  pbind (read_return_type input) fun input return_type =>
  pbind (blank input) fun input _ =>
  pbind (popt (read_code_block fuel) input) fun input block? =>
  .ok input (NLFunction.mk name args return_type
    (match block? with
     | some (NLOperation.Block b) => some b
     | _ => none))

/-- `read_method`: without a body a terminating semicolon is required. -/
def read_method (fuel : Nat) (input : List Char) : PResult NLImplementor :=
  match read_method_head fuel input with
  | .ok input m =>
    if m.block.isNone then
      match pchar ';' input with
      | .ok input _ => .ok input (NLImplementor.Method m)
      | .err => .err
      | .fail => .fail
    else .ok input (NLImplementor.Method m)
  | .err => .err
  | .fail => .fail

/-- Everything `read_function` consumes before its body-or-semicolon
decision. -/
def read_function_head (fuel : Nat) (input : List Char) : PResult NLFunction :=
  pbind (blank input) fun input _ =>
  pbind (ptag ['f', 'n'] input) fun input _ =>
  pbind (blank input) fun input _ =>
  pbind (read_method_name input) fun input name =>
  pbind (blank input) fun input _ =>
  pbind (read_argument_deceleration_list input) fun input args =>
  pbind (blank input) fun input _ =>
  pbind (read_return_type input) fun input return_type =>
  pbind (blank input) fun input _ =>
  pbind (popt (read_code_block fuel) input) fun input block? =>
  .ok input (NLFunction.mk name args return_type
    (match block? with
     | some (NLOperation.Block b) => some b
     | _ => none))

/-- `read_function`. -/
def read_function (fuel : Nat) (input : List Char) : PResult RootDeceleration :=
  match read_function_head fuel input with
  | .ok input f =>
    if f.block.isNone then
      match pchar ';' input with
      | .ok input _ => .ok input (RootDeceleration.Function f)
      | .err => .err
      | .fail => .fail
    else .ok input (RootDeceleration.Function f)
  | .err => .err
  | .fail => .fail

/-- `read_getter` up to (and including) the optional `: default` marker. -/
def read_getter_common (input : List Char) : PResult (List Char × Bool) :=
  pbind (blank input) fun input _ =>
  pbind (ptag ['g', 'e', 't'] input) fun input _ =>
  pbind (read_method_name input) fun input name =>
  pbind (blank input) fun input _ =>
  pbind (popt (fun i =>
          pbind (pchar ':' i) fun i _ =>
          pbind (blank i) fun i _ =>
          pbind (ptag ['d', 'e', 'f', 'a', 'u', 'l', 't'] i) fun i _ =>
          blank i) input) fun input default? =>
  .ok input (name, default?.isSome)

/-- Default-getter continuation, up to the mandatory semicolon. -/
def read_getter_default_tail (name : List Char) (input : List Char) : PResult NLGetter :=
  pbind (read_return_type input) fun input nl_type =>
  .ok input (NLGetter.mk name [] nl_type NLEncapsulationBlock.Default)

/-- Explicit-getter continuation, up to the body-or-semicolon decision. -/
def read_getter_expl_tail (fuel : Nat) (name : List Char) (input : List Char) :
    PResult NLGetter :=
  pbind (read_argument_deceleration_list input) fun input args =>
  pbind (read_return_type input) fun input nl_type =>
  pbind (popt (read_code_block fuel) input) fun input block? =>
  .ok input (NLGetter.mk name args nl_type
    (match block? with
     | some (NLOperation.Block b) => NLEncapsulationBlock.Some b
     | _ => NLEncapsulationBlock.None))

/-- `read_getter`. -/
def read_getter (fuel : Nat) (input : List Char) : PResult NLImplementor :=
  match read_getter_common input with
  | .ok input nd =>
    if nd.2 then
      match read_getter_default_tail nd.1 input with
      | .ok input g =>
        (match pchar ';' input with
         | .ok input _ => .ok input (NLImplementor.Getter g)
         | .err => .err
         | .fail => .fail)
      | .err => .err
      | .fail => .fail
    else
      match read_getter_expl_tail fuel nd.1 input with
      | .ok input g =>
        (match g.block with
         | NLEncapsulationBlock.Some _ => .ok input (NLImplementor.Getter g)
         | _ =>
           match pchar ';' input with
           | .ok input _ => .ok input (NLImplementor.Getter g)
           | .err => .err
           | .fail => .fail)
      | .err => .err
      | .fail => .fail
  | .err => .err
  | .fail => .fail

/-- `read_setter` up to (and including) the name and following blank. -/
def read_setter_start (input : List Char) : PResult (List Char) :=
  pbind (blank input) fun input _ =>
  pbind (ptag ['s', 'e', 't'] input) fun input _ =>
  pbind (read_method_name input) fun input name =>
  pbind (blank input) fun input _ =>
  .ok input name

/-- The setter `: default` marker, before its semicolon. -/
def read_setter_default_marker (input : List Char) : PResult Unit :=
  pbind (pchar ':' input) fun input _ =>
  pbind (blank input) fun input _ =>
  pbind (ptag ['d', 'e', 'f', 'a', 'u', 'l', 't'] input) fun input _ =>
  blank input

/-- Explicit-setter continuation, up to the body-or-semicolon decision. -/
def read_setter_expl_tail (fuel : Nat) (name : List Char) (input : List Char) :
    PResult NLSetter :=
  pbind (read_argument_deceleration_list input) fun input args =>
  pbind (blank input) fun input _ =>
  pbind (popt (read_code_block fuel) input) fun input block? =>
  .ok input (NLSetter.mk name args
    (match block? with
     | some (NLOperation.Block b) => NLEncapsulationBlock.Some b
     | _ => NLEncapsulationBlock.None))

/-- `read_setter`; the default marker's tuple includes the semicolon. -/
def read_setter (fuel : Nat) (input : List Char) : PResult NLImplementor :=
  match read_setter_start input with
  | .ok input name =>
    (match popt (fun i =>
             pbind (read_setter_default_marker i) fun i _ => pchar ';' i) input with
     | .ok input default? =>
       if default?.isSome then
         .ok input (NLImplementor.Setter (NLSetter.mk name [] NLEncapsulationBlock.Default))
       else
         match read_setter_expl_tail fuel name input with
         | .ok input s =>
           (match s.block with
            | NLEncapsulationBlock.Some _ => .ok input (NLImplementor.Setter s)
            | _ =>
              match pchar ';' input with
              | .ok input _ => .ok input (NLImplementor.Setter s)
              | .err => .err
              | .fail => .fail)
         | .err => .err
         | .fail => .fail
     | .err => .err
     | .fail => .fail)
  | .err => .err
  | .fail => .fail

/-- `read_trait`. -/
def read_trait (fuel : Nat) (input : List Char) : PResult RootDeceleration :=
  pbind (blank input) fun input _ =>
  pbind (ptag ['t', 'r', 'a', 'i', 't'] input) fun input _ =>
  pbind (blank input) fun input _ =>
  pbind (read_struct_or_trait_name input) fun input name =>
  pbind (blank input) fun input _ =>
  pbind (pchar '{' input) fun input _ =>
  pbind (blank input) fun input _ =>
  pbind (pmany0 (palt (read_method fuel) (palt (read_getter fuel) (read_setter fuel)))
          input) fun input implementors =>
  pbind (blank input) fun input _ =>
  pbind (pchar '}' input) fun input _ =>
  .ok input (RootDeceleration.Trait (NLTrait.mk name implementors))

/-- `read_struct_variable`. -/
def read_struct_variable (input : List Char) : PResult NLStructVariable :=
  pbind (blank input) fun input _ =>
  pbind (read_variable_name input) fun input name =>
  pbind (blank input) fun input _ =>
  pbind (pchar ':' input) fun input _ =>
  pbind (blank input) fun input _ =>
  pbind (read_variable_type input) fun input nl_type =>
  .ok input (NLStructVariable.mk name nl_type)

/-- `read_implementation`. -/
def read_implementation (fuel : Nat) (input : List Char) : PResult NLImplementation :=
  pbind (blank input) fun input _ =>
  pbind (ptag ['i', 'm', 'p', 'l'] input) fun input _ =>
  pbind (read_struct_or_trait_name input) fun input name =>
  pbind (pchar '{' input) fun input _ =>
  pbind (blank input) fun input _ =>
  pbind (pmany0 (palt (read_method fuel) (palt (read_getter fuel) (read_setter fuel)))
          input) fun input methods =>
  pbind (blank input) fun input _ =>
  pbind (pchar '}' input) fun input _ =>
  .ok input (NLImplementation.mk name methods)

/-- The separator of non-final struct fields: `tuple((blank, char(',')))`. -/
def struct_variable_separator (i : List Char) : PResult Char :=
  pbind (blank i) fun i _ => pchar ',' i

/-- `read_struct`. -/
def read_struct (fuel : Nat) (input : List Char) : PResult RootDeceleration :=
  pbind (blank input) fun input _ =>
  pbind (ptag ['s', 't', 'r', 'u', 'c', 't'] input) fun input _ =>
  pbind (blank input) fun input _ =>
  pbind (read_struct_or_trait_name input) fun input name =>
  pbind (blank input) fun input _ =>
  pbind (pchar '{' input) fun input _ =>
  pbind (blank input) fun input _ =>
  pbind (pmany0 (pterminated read_struct_variable struct_variable_separator) input)
    fun input vars =>
  pbind (blank input) fun input _ =>
  pbind (popt read_struct_variable input) fun input last_var =>
  pbind (blank input) fun input _ =>
  pbind (pchar '}' input) fun input _ =>
  pbind (pmany0 (read_implementation fuel) input) fun input implementations =>
  .ok input (RootDeceleration.Struct (NLStruct.mk name
    (match last_var with
     | some v => vars ++ [v]
     | none => vars) implementations))

/- ### File assembly -/

/-- `parse_file_root`. -/
def parse_file_root (fuel : Nat) (input : List Char) : PResult NLFile :=
  if input.isEmpty then .ok input (NLFile.mk [] [] [] [])
  else
    pbind (pmany1 (palt (read_struct fuel) (palt (read_trait fuel) (read_function fuel)))
            input) fun input root_defs =>
    .ok input (root_defs.foldl
      (fun file rd =>
        match rd with
        | RootDeceleration.Struct s => { file with structs := file.structs ++ [s] }
        | RootDeceleration.Trait t => { file with traits := file.traits ++ [t] }
        | RootDeceleration.Function f => { file with functions := file.functions ++ [f] })
      (NLFile.mk [] [] [] []))

/-- `parse_string`: both nom error kinds become a `ParseError`, modelled as
`none`; on success the leftover input is discarded and the file gets the
supplied name. -/
def parse_string (fuel : Nat) (input : List Char) (file_name : List Char) :
    Option NLFile :=
  match parse_file_root fuel input with
  | .ok _ file => some { file with name := file_name }
  | .err => none
  | .fail => none

/- ### Shape checkers used to state the claims -/

/-- True exactly on operator nodes whose `OpOperator` takes two operands
(an unparenthesized binary-operator expression). -/
def is_binary_operator_node : NLOperation → Bool
  | .Operator (.LogicalNegate _) => false
  | .Operator (.ArithmeticNegate _) => false
  | .Operator (.BitNegate _) => false
  | .Operator (.PropError _) => false
  | .Operator _ => true
  | _ => false

/-- The operand list of an operator. -/
def op_operands : OpOperator → List NLOperation
  | .CompareEqual a b => [a, b]
  | .CompareNotEqual a b => [a, b]
  | .CompareGreater a b => [a, b]
  | .CompareLess a b => [a, b]
  | .CompareGreaterEqual a b => [a, b]
  | .CompareLessEqual a b => [a, b]
  | .LogicalNegate a => [a]
  | .LogicalAnd a b => [a, b]
  | .LogicalOr a b => [a, b]
  | .LogicalXor a b => [a, b]
  | .BitAnd a b => [a, b]
  | .BitOr a b => [a, b]
  | .BitXor a b => [a, b]
  | .ArithmeticNegate a => [a]
  | .BitNegate a => [a]
  | .BitLeftShift a b => [a, b]
  | .BitRightShift a b => [a, b]
  | .PropError a => [a]
  | .ArithmeticMod a b => [a, b]
  | .ArithmeticAdd a b => [a, b]
  | .ArithmeticSub a b => [a, b]
  | .ArithmeticMul a b => [a, b]
  | .ArithmeticDiv a b => [a, b]

/-- Direct operands of an operator node (empty for non-operators). -/
def direct_operands : NLOperation → List NLOperation
  | .Operator o => op_operands o
  | _ => []

/-- Does this node (not its descendants) have a binary-operator expression
as a direct operand? -/
def op_has_binary_direct_operand (op : NLOperation) : Bool :=
  (direct_operands op).any is_binary_operator_node

/-- Shape asserted by claim C6 for `((1, 2), 3)`: a two-element tuple whose
first element is itself a two-element tuple. -/
def claim_c6_shape : NLOperation → Bool
  | .Tuple [.Tuple [_, _], _] => true
  | _ => false

/- ### Shape lemmas for the expression alternation -/

theorem read_code_block_p_shape {rdop : List Char → PResult NLOperation}
    {input rest : List Char} {op : NLOperation}
    (h : read_code_block_p rdop input = .ok rest op) :
    ∃ ops, op = NLOperation.Block (NLBlock.mk ops) := by
  simp only [read_code_block_p, pbind_ok] at h
  repeat obtain ⟨_, _, _, h⟩ := h
  exact ⟨_, rfl⟩

theorem read_tuple_p_shape {rdop : List Char → PResult NLOperation}
    {input rest : List Char} {op : NLOperation}
    (h : read_tuple_p rdop input = .ok rest op) :
    ∃ ops, op = NLOperation.Tuple ops := by
  simp only [read_tuple_p, pbind_ok] at h
  repeat obtain ⟨_, _, _, h⟩ := h
  exact ⟨_, rfl⟩

theorem read_assignment_p_shape {rdop : List Char → PResult NLOperation}
    {input rest : List Char} {op : NLOperation}
    (h : read_assignment_p rdop input = .ok rest op) :
    ∃ a, op = NLOperation.Assign a := by
  simp only [read_assignment_p, pbind_ok] at h
  repeat obtain ⟨_, _, _, h⟩ := h
  exact ⟨_, rfl⟩

theorem read_constant_shape {input rest : List Char} {op : NLOperation}
    (h : read_constant input = .ok rest op) :
    ∃ c, op = NLOperation.Constant c := by
  simp only [read_constant, pbind_ok] at h
  repeat obtain ⟨_, _, _, h⟩ := h
  exact ⟨_, rfl⟩

theorem read_urinary_operator_p_not_binary {rdop : List Char → PResult NLOperation}
    {input rest : List Char} {op : NLOperation}
    (h : read_urinary_operator_p rdop input = .ok rest op) :
    is_binary_operator_node op = false := by
  simp only [read_urinary_operator_p, pbind_ok] at h
  repeat obtain ⟨_, _, _, h⟩ := h
  split at h <;> cases h <;> rfl

theorem read_sub_operation_p_not_binary {rdop : List Char → PResult NLOperation}
    {input rest : List Char} {op : NLOperation}
    (h : read_sub_operation_p rdop input = .ok rest op) :
    is_binary_operator_node op = false := by
  unfold read_sub_operation_p at h
  rcases palt_ok h with h | h
  · obtain ⟨ops, rfl⟩ := read_code_block_p_shape h
    rfl
  rcases palt_ok h with h | h
  · obtain ⟨ops, rfl⟩ := read_tuple_p_shape h
    rfl
  rcases palt_ok h with h | h
  · obtain ⟨a, rfl⟩ := read_assignment_p_shape h
    rfl
  rcases palt_ok h with h | h
  · obtain ⟨c, rfl⟩ := read_constant_shape h
    rfl
  · exact read_urinary_operator_p_not_binary h

/-- Every constructor `binary_operator_for` can select yields a binary
node with the two given operands. -/
theorem binary_operator_for_spec {sym : List Char}
    {ctor : NLOperation → NLOperation → OpOperator}
    (h : binary_operator_for sym = some ctor) (a b : NLOperation) :
    is_binary_operator_node (NLOperation.Operator (ctor a b)) = true ∧
      op_operands (ctor a b) = [a, b] := by
  unfold binary_operator_for at h
  rcases hf : binary_operator_table.find? (fun e => e.1 == sym) with - | e
  · rw [hf] at h
    cases h
  · rw [hf] at h
    obtain rfl : e.2 = ctor := by
      cases h
      rfl
    have he := List.mem_of_find?_eq_some hf
    fin_cases he <;> exact ⟨rfl, rfl⟩

theorem read_binary_operator_p_operands {rdsub : List Char → PResult NLOperation}
    {input rest : List Char} {op : NLOperation}
    (hsub : ∀ i r o, rdsub i = .ok r o → is_binary_operator_node o = false)
    (h : read_binary_operator_p rdsub input = .ok rest op) :
    is_binary_operator_node op = true ∧
      (direct_operands op).all (fun x => !is_binary_operator_node x) = true := by
  unfold read_binary_operator_p at h
  simp only [pbind_ok] at h
  obtain ⟨_, _, _, h⟩ := h
  obtain ⟨_, a, ha, h⟩ := h
  obtain ⟨_, _, _, h⟩ := h
  obtain ⟨_, sym, hsym, h⟩ := h
  obtain ⟨_, _, _, h⟩ := h
  obtain ⟨_, b, hb, h⟩ := h
  have hna := hsub _ _ _ ha
  have hnb := hsub _ _ _ hb
  rcases hbo : binary_operator_for sym with - | ctor
  · rw [hbo] at h
    cases h
  · rw [hbo] at h
    cases h
    obtain ⟨h1, h2⟩ := binary_operator_for_spec hbo a b
    refine ⟨h1, ?_⟩
    simp only [direct_operands, h2, List.all_cons, List.all_nil, hna, hnb,
      Bool.not_false, Bool.and_self, Bool.and_true]

/- ### Claim C1 -/

/-- Claim C1 counterexample: the claim asserts that `a + (b + c)` parses
successfully, but the full operation parser rejects it — the operation
grammar has no bare-variable alternative, so the operand `a` cannot be
read. -/
theorem claim_c1_counterexample :
    read_operation 20 ((r"a + (b + c)").toList) = PResult.err := rfl

/-- Claim C1, amended: `a + b + c` fails to parse, and so does
`a + (b + c)`, because bare identifiers are not operations; with constant
operands the stated structure does arise: `1 + (2 + 3)` parses to an add
whose right operand is a grouping (single-element tuple) containing an add
of `2` and `3`. -/
theorem claim_c1_amended :
    read_operation 20 ((r"a + b + c").toList) = PResult.err ∧
    read_operation 20 ((r"a + (b + c)").toList) = PResult.err ∧
    read_operation 20 ((r"1 + (2 + 3)").toList) =
      PResult.ok []
        (NLOperation.Operator (OpOperator.ArithmeticAdd
          (NLOperation.Constant (OpConstant.Integer 1 NLType.None))
          (NLOperation.Tuple [NLOperation.Operator (OpOperator.ArithmeticAdd
            (NLOperation.Constant (OpConstant.Integer 2 NLType.None))
            (NLOperation.Constant (OpConstant.Integer 3 NLType.None)))]))) :=
  ⟨rfl, rfl, rfl⟩

/- ### Claim C2, counterexample part -/

/-- Claim C2 counterexample: `!1+2` parses to a unary operator whose
direct operand is an unparenthesized binary-operator expression, because
`read_urinary_operator` reads its operand with the full `read_operation`,
not the restricted sub-operation parser. -/
theorem claim_c2_counterexample :
    read_operation 20 ((r"!1+2").toList) =
      PResult.ok []
        (NLOperation.Operator (OpOperator.LogicalNegate
          (NLOperation.Operator (OpOperator.ArithmeticAdd
            (NLOperation.Constant (OpConstant.Integer 1 NLType.None))
            (NLOperation.Constant (OpConstant.Integer 2 NLType.None)))))) ∧
    op_has_binary_direct_operand
      (NLOperation.Operator (OpOperator.LogicalNegate
        (NLOperation.Operator (OpOperator.ArithmeticAdd
          (NLOperation.Constant (OpConstant.Integer 1 NLType.None))
          (NLOperation.Constant (OpConstant.Integer 2 NLType.None)))))) = true :=
  ⟨rfl, rfl⟩

/-- Claim C2, amended: the operands of a binary operator are read through
the restricted sub-operation parser, so for every input a successful
sub-operation parse is never a binary-operator node and a successful
binary-operator parse never has a binary-operator node as a direct
operand; the single operand of a unary operator, however, is read with the
full operation parser and can be an unparenthesized binary expression (see
the counterexample). -/
theorem claim_c2_amended :
    (∀ fuel input rest op, read_sub_operation fuel input = PResult.ok rest op →
       is_binary_operator_node op = false) ∧
    (∀ fuel input rest op, read_binary_operator fuel input = PResult.ok rest op →
       is_binary_operator_node op = true ∧
         (direct_operands op).all (fun x => !is_binary_operator_node x) = true) := by
  constructor
  · intro fuel input rest op h
    exact read_sub_operation_p_not_binary h
  · intro fuel input rest op h
    exact read_binary_operator_p_operands
      (fun i r o hh => read_sub_operation_p_not_binary hh) h

/-- Witness for C2 at concrete inputs `1` and `1+2`. -/
theorem claim_c2_amended_witness :
    is_binary_operator_node (NLOperation.Constant (OpConstant.Integer 1 NLType.None))
      = false ∧
    (is_binary_operator_node (NLOperation.Operator (OpOperator.ArithmeticAdd
        (NLOperation.Constant (OpConstant.Integer 1 NLType.None))
        (NLOperation.Constant (OpConstant.Integer 2 NLType.None)))) = true ∧
      (direct_operands (NLOperation.Operator (OpOperator.ArithmeticAdd
        (NLOperation.Constant (OpConstant.Integer 1 NLType.None))
        (NLOperation.Constant (OpConstant.Integer 2 NLType.None))))).all
          (fun x => !is_binary_operator_node x) = true) :=
  ⟨claim_c2_amended.1 5 ((r"1").toList) []
      (NLOperation.Constant (OpConstant.Integer 1 NLType.None)) rfl,
   claim_c2_amended.2 5 ((r"1+2").toList) []
      (NLOperation.Operator (OpOperator.ArithmeticAdd
        (NLOperation.Constant (OpConstant.Integer 1 NLType.None))
        (NLOperation.Constant (OpConstant.Integer 2 NLType.None)))) rfl⟩

/- ### Claim C3 -/

/-- Claim C3 counterexample: `fn add(a: i32, b: i32) -> i32 { a }` does
not parse — the body `{ a }` is rejected because a bare variable name is
not a valid operation, so the block parse fails and the subsequent
semicolon requirement fails too. -/
theorem claim_c3_counterexample :
    read_function 20 ((r"fn add(a: i32, b: i32) -> i32 ").toList ++
      ['{', ' ', 'a', ' ', '}']) = PResult.err := rfl

/-- Claim C3, amended: `fn add(a: i32, b: i32) -> i32 { a }` fails to
parse (bare variable names are not operations); with a constant body,
`fn add(a: i32, b: i32) -> i32 {5}` parses to a function named `add` with
two i32 arguments `a` and `b` in that order, i32 return type, and a
non-empty body block. -/
theorem claim_c3_amended :
    read_function 20 ((r"fn add(a: i32, b: i32) -> i32 ").toList ++
      ['{', ' ', 'a', ' ', '}']) = PResult.err ∧
    read_function 20 ((r"fn add(a: i32, b: i32) -> i32 ").toList ++ ['{', '5', '}']) =
      PResult.ok []
        (RootDeceleration.Function (NLFunction.mk (r"add").toList
          [NLArgument.mk (r"a").toList NLType.I32, NLArgument.mk (r"b").toList NLType.I32]
          NLType.I32
          (some (NLBlock.mk [NLOperation.Constant (OpConstant.Integer 5 NLType.None)])))) :=
  ⟨rfl, rfl⟩

/- ### Helper lemmas about takeWhile, dropWhile and `blank` -/

theorem takeWhile_append_all {p : Char → Bool} {l₁ l₂ : List Char} (h : l₁.all p = true) :
    (l₁ ++ l₂).takeWhile p = l₁ ++ l₂.takeWhile p := by
  induction l₁ with
  | nil => simp
  | cons a l ih =>
    simp only [List.all_cons, Bool.and_eq_true] at h
    simp [List.takeWhile_cons, h.1, ih h.2]

theorem dropWhile_append_all {p : Char → Bool} {l₁ l₂ : List Char} (h : l₁.all p = true) :
    (l₁ ++ l₂).dropWhile p = l₂.dropWhile p := by
  induction l₁ with
  | nil => simp
  | cons a l ih =>
    simp only [List.all_cons, Bool.and_eq_true] at h
    simp [List.dropWhile_cons, h.1, ih h.2]

theorem takeWhile_all {p : Char → Bool} {l : List Char} (h : l.all p = true) :
    l.takeWhile p = l := by
  have := @takeWhile_append_all p l [] h
  simpa using this

theorem dropWhile_all {p : Char → Bool} {l : List Char} (h : l.all p = true) :
    l.dropWhile p = [] := by
  have := @dropWhile_append_all p l [] h
  simpa using this

theorem all_takeWhile (p : Char → Bool) (l : List Char) :
    (l.takeWhile p).all p = true := by
  induction l with
  | nil => rfl
  | cons a l ih =>
    by_cases h : p a <;> simp [List.takeWhile_cons, h, ih]

theorem read_comment_cons_of {c : Char} {t : List Char} (h2 : ('/' == c) = false) :
    read_comment (c :: t) = .err := by
  unfold read_comment palt ppreceded ptag
  simp [list_starts_with, h2, pbind]

theorem read_comments_cons_of {c : Char} {t : List Char} (h2 : ('/' == c) = false) :
    read_comments (c :: t) = .ok (c :: t) [] := by
  unfold read_comments precognize pmany0
  rw [show (c :: t).length + 1 = t.length + 1 + 1 from by simp]
  simp [pmany0_go, pterminated, read_comment_cons_of h2, pbind]

theorem blank_nil : blank [] = .ok [] () := rfl

/-- `blank` consumes a run of whitespace and stops at a character that is
neither whitespace nor a possible comment opener. -/
theorem blank_ws {ws : List Char} {c : Char} {t : List Char}
    (hws : ws.all is_multispace = true)
    (h1 : is_multispace c = false) (h2 : ('/' == c) = false) :
    blank (ws ++ c :: t) = .ok (c :: t) () := by
  unfold blank ppreceded multispace0 ptake_while
  rw [dropWhile_append_all hws]
  simp [List.dropWhile_cons, h1, pbind, read_comments_cons_of h2]

theorem blank_cons_of {c : Char} {t : List Char}
    (h1 : is_multispace c = false) (h2 : ('/' == c) = false) :
    blank (c :: t) = .ok (c :: t) () := by
  have := @blank_ws [] c t rfl h1 h2
  simpa using this

/- ### Claim C4, counterexample part -/

/-- Claim C4 counterexample: `fn f();@` ends in trailing text that is not
a valid declaration, yet `parse_string` succeeds — the leftover `@` is
silently discarded rather than reported as an error. -/
theorem claim_c4_counterexample :
    parse_string 20 ((r"fn f();@").toList) ((r"test").toList) =
      some (NLFile.mk (r"test").toList [] []
        [NLFunction.mk ['f'] [] NLType.None none]) := rfl

/-- Claim C4, amended: the top-level parse does not require the whole
buffer to be consumed — trailing text after the last recognized
declaration that is not a valid declaration is silently discarded rather
than reported as an error (`fn f();@` succeeds with `@` left unconsumed).
Non-empty input still needs at least one leading declaration: if the
struct, trait and function alternatives all fail recoverably at the
start, `parse_string` returns an error.  (This is one direction only: a
later declaration aborting with an unrecoverable failure can also make
the whole parse error.) -/
theorem claim_c4_amended :
    parse_file_root 20 ((r"fn f();@").toList) =
      PResult.ok ((r"@").toList)
        (NLFile.mk [] [] [] [NLFunction.mk ['f'] [] NLType.None none]) ∧
    (∀ fuel input name, input ≠ [] →
       read_struct fuel input = PResult.err →
       read_trait fuel input = PResult.err →
       read_function fuel input = PResult.err →
       parse_string fuel input name = none) := by
  refine ⟨rfl, ?_⟩
  intro fuel input name hne hs ht hf
  have he : input.isEmpty = false := by
    cases input with
    | nil => exact absurd rfl hne
    | cons a l => rfl
  unfold parse_string parse_file_root
  simp [he, pmany1, palt, hs, ht, hf, pbind]

/-- Witness for C4 at the one-character input `@`. -/
theorem claim_c4_amended_witness : parse_string 5 ['@'] ['n'] = none :=
  claim_c4_amended.2 5 ['@'] ['n'] (by simp) rfl rfl rfl

/- ### Claim C5 -/

theorem read_getter_default_tail_block {nm input rest : List Char} {g : NLGetter}
    (h : read_getter_default_tail nm input = .ok rest g) :
    g.block = NLEncapsulationBlock.Default := by
  unfold read_getter_default_tail at h
  simp only [pbind_ok] at h
  obtain ⟨_, _, _, h⟩ := h
  cases h
  rfl

theorem read_getter_expl_tail_block {fuel : Nat} {nm input rest : List Char} {g : NLGetter}
    (h : read_getter_expl_tail fuel nm input = .ok rest g) :
    (∃ b, g.block = NLEncapsulationBlock.Some b) ∨
      g.block = NLEncapsulationBlock.None := by
  unfold read_getter_expl_tail at h
  simp only [pbind_ok] at h
  obtain ⟨_, _, _, h⟩ := h
  obtain ⟨_, _, _, h⟩ := h
  obtain ⟨_, bo, -, h⟩ := h
  cases h
  rcases bo with - | op
  · right; rfl
  · cases op
    case Block b => exact Or.inl ⟨b, rfl⟩
    all_goals right; rfl

theorem read_setter_expl_tail_block {fuel : Nat} {nm input rest : List Char} {s : NLSetter}
    (h : read_setter_expl_tail fuel nm input = .ok rest s) :
    (∃ b, s.block = NLEncapsulationBlock.Some b) ∨
      s.block = NLEncapsulationBlock.None := by
  unfold read_setter_expl_tail at h
  simp only [pbind_ok] at h
  obtain ⟨_, _, _, h⟩ := h
  obtain ⟨_, _, _, h⟩ := h
  obtain ⟨_, bo, -, h⟩ := h
  cases h
  rcases bo with - | op
  · right; rfl
  · cases op
    case Block b => exact Or.inl ⟨b, rfl⟩
    all_goals right; rfl

/-- Claim C5: a method, free function, getter or setter never parses with
both a body block and a consumed trailing semicolon, nor with neither:
whenever the parse succeeds, either the declaration carries a body and the
remaining input is exactly what followed the body (no semicolon consumed),
or it carries no body and the character consumed immediately before the
remaining input is a mandatory `;` (for getters and setters this includes
their `default` forms). -/
theorem claim_c5 :
    (∀ fuel input rest impl, read_method fuel input = PResult.ok rest impl →
       ∃ mid f, read_method_head fuel input = PResult.ok mid f ∧
         impl = NLImplementor.Method f ∧
         ((f.block.isSome = true ∧ rest = mid) ∨
          (f.block = none ∧ mid = ';' :: rest))) ∧
    (∀ fuel input rest decl, read_function fuel input = PResult.ok rest decl →
       ∃ mid f, read_function_head fuel input = PResult.ok mid f ∧
         decl = RootDeceleration.Function f ∧
         ((f.block.isSome = true ∧ rest = mid) ∨
          (f.block = none ∧ mid = ';' :: rest))) ∧
    (∀ fuel input rest impl, read_getter fuel input = PResult.ok rest impl →
       ∃ mid0 nm d, read_getter_common input = PResult.ok mid0 (nm, d) ∧
         ∃ g mid, impl = NLImplementor.Getter g ∧
           ((d = true ∧ read_getter_default_tail nm mid0 = PResult.ok mid g ∧
              g.block = NLEncapsulationBlock.Default ∧ mid = ';' :: rest) ∨
            (d = false ∧ read_getter_expl_tail fuel nm mid0 = PResult.ok mid g ∧
              (((∃ b, g.block = NLEncapsulationBlock.Some b) ∧ rest = mid) ∨
               (g.block = NLEncapsulationBlock.None ∧ mid = ';' :: rest))))) ∧
    (∀ fuel input rest impl, read_setter fuel input = PResult.ok rest impl →
       ∃ mid0 nm, read_setter_start input = PResult.ok mid0 nm ∧
         ∃ s, impl = NLImplementor.Setter s ∧
           ((s.block = NLEncapsulationBlock.Default ∧
              ∃ mid, read_setter_default_marker mid0 = PResult.ok mid () ∧
                mid = ';' :: rest) ∨
            (∃ mid, read_setter_expl_tail fuel nm mid0 = PResult.ok mid s ∧
              (((∃ b, s.block = NLEncapsulationBlock.Some b) ∧ rest = mid) ∨
               (s.block = NLEncapsulationBlock.None ∧ mid = ';' :: rest))))) := by
  refine ⟨?_, ?_, ?_, ?_⟩
  · intro fuel input rest impl h
    unfold read_method at h
    split at h
    · rename_i mid m hm
      split at h
      · rename_i hnone
        split at h
        · rename_i rest2 c hc
          cases h
          exact ⟨_, m, hm, rfl,
            Or.inr ⟨Option.isNone_iff_eq_none.mp hnone, pchar_ok hc⟩⟩
        · cases h
        · cases h
      · rename_i hsome
        cases h
        refine ⟨_, m, hm, rfl, Or.inl ⟨?_, rfl⟩⟩
        cases hmb : m.block with
        | none => rw [hmb] at hsome; exact absurd rfl hsome
        | some b => rfl
    · cases h
    · cases h
  · intro fuel input rest decl h
    unfold read_function at h
    split at h
    · rename_i mid f hf
      split at h
      · rename_i hnone
        split at h
        · rename_i rest2 c hc
          cases h
          exact ⟨_, f, hf, rfl,
            Or.inr ⟨Option.isNone_iff_eq_none.mp hnone, pchar_ok hc⟩⟩
        · cases h
        · cases h
      · rename_i hsome
        cases h
        refine ⟨_, f, hf, rfl, Or.inl ⟨?_, rfl⟩⟩
        cases hfb : f.block with
        | none => rw [hfb] at hsome; exact absurd rfl hsome
        | some b => rfl
    · cases h
    · cases h
  · intro fuel input rest impl h
    unfold read_getter at h
    split at h
    · rename_i mid0 nd hcommon
      split at h
      · rename_i hd
        split at h
        · rename_i mid g htail
          split at h
          · rename_i rest2 c hc
            cases h
            exact ⟨_, nd.1, nd.2, hcommon, g, _, rfl,
              Or.inl ⟨hd, htail, read_getter_default_tail_block htail, pchar_ok hc⟩⟩
          · cases h
          · cases h
        · cases h
        · cases h
      · rename_i hd
        split at h
        · rename_i mid g htail
          split at h
          · rename_i b hblock
            cases h
            exact ⟨_, nd.1, nd.2, hcommon, g, _, rfl,
              Or.inr ⟨(Bool.not_eq_true _).mp hd, htail, Or.inl ⟨⟨b, hblock⟩, rfl⟩⟩⟩
          · rename_i hblock
            split at h
            · rename_i rest2 c hc
              cases h
              refine ⟨_, nd.1, nd.2, hcommon, g, _, rfl,
                Or.inr ⟨(Bool.not_eq_true _).mp hd, htail, Or.inr ⟨?_, pchar_ok hc⟩⟩⟩
              rcases read_getter_expl_tail_block htail with ⟨b, hb⟩ | hb
              · exact absurd hb (hblock b)
              · exact hb
            · cases h
            · cases h
        · cases h
        · cases h
    · cases h
    · cases h
  · intro fuel input rest impl h
    unfold read_setter at h
    split at h
    · rename_i mid0 nm hstart
      split at h
      · rename_i rest1 d? hpopt
        split at h
        · rename_i hd
          cases h
          obtain ⟨u, rfl⟩ := Option.isSome_iff_exists.mp hd
          have hinner := popt_ok_some hpopt
          simp only [pbind_ok] at hinner
          obtain ⟨mid, u2, hmarker, hsemi⟩ := hinner
          exact ⟨_, nm, hstart, _, rfl,
            Or.inl ⟨rfl, mid, hmarker, pchar_ok hsemi⟩⟩
        · rename_i hd
          have hnone := Option.not_isSome_iff_eq_none.mp hd
          subst hnone
          have hrw := popt_ok_none hpopt
          subst hrw
          split at h
          · rename_i mid s htail
            split at h
            · rename_i b hblock
              cases h
              exact ⟨_, nm, hstart, s, rfl,
                Or.inr ⟨_, htail, Or.inl ⟨⟨b, hblock⟩, rfl⟩⟩⟩
            · rename_i hblock
              split at h
              · rename_i rest2 c hc
                cases h
                refine ⟨_, nm, hstart, s, rfl,
                  Or.inr ⟨_, htail, Or.inr ⟨?_, pchar_ok hc⟩⟩⟩
                rcases read_setter_expl_tail_block htail with ⟨b, hb⟩ | hb
                · exact absurd hb (hblock b)
                · exact hb
              · cases h
              · cases h
          · cases h
          · cases h
      · cases h
      · cases h
    · cases h
    · cases h

/-- Witness for C5: a method with a body, a bodyless function, a default
getter and a bodyless setter. -/
theorem claim_c5_witness :
    (∃ mid f,
       read_method_head 20 ((r"met m()").toList ++ ['{', '5', '}']) = PResult.ok mid f ∧
       NLImplementor.Method (NLFunction.mk ['m'] [] NLType.None
           (some (NLBlock.mk [NLOperation.Constant (OpConstant.Integer 5 NLType.None)]))) =
         NLImplementor.Method f ∧
       ((f.block.isSome = true ∧ ([] : List Char) = mid) ∨
        (f.block = none ∧ mid = ';' :: ([] : List Char)))) ∧
    (∃ mid f,
       read_function_head 20 ((r"fn f();").toList) = PResult.ok mid f ∧
       RootDeceleration.Function (NLFunction.mk ['f'] [] NLType.None none) =
         RootDeceleration.Function f ∧
       ((f.block.isSome = true ∧ ([] : List Char) = mid) ∨
        (f.block = none ∧ mid = ';' :: ([] : List Char)))) ∧
    (∃ mid0 nm d,
       read_getter_common ((r"get g: default -> i32;").toList) = PResult.ok mid0 (nm, d) ∧
       ∃ g mid,
         NLImplementor.Getter (NLGetter.mk ['g'] [] NLType.I32 NLEncapsulationBlock.Default) =
           NLImplementor.Getter g ∧
         ((d = true ∧ read_getter_default_tail nm mid0 = PResult.ok mid g ∧
            g.block = NLEncapsulationBlock.Default ∧ mid = ';' :: ([] : List Char)) ∨
          (d = false ∧ read_getter_expl_tail 20 nm mid0 = PResult.ok mid g ∧
            (((∃ b, g.block = NLEncapsulationBlock.Some b) ∧ ([] : List Char) = mid) ∨
             (g.block = NLEncapsulationBlock.None ∧ mid = ';' :: ([] : List Char)))))) ∧
    (∃ mid0 nm,
       read_setter_start ((r"set s(v: i32);").toList) = PResult.ok mid0 nm ∧
       ∃ s,
         NLImplementor.Setter (NLSetter.mk ['s'] [NLArgument.mk ['v'] NLType.I32]
             NLEncapsulationBlock.None) = NLImplementor.Setter s ∧
         ((s.block = NLEncapsulationBlock.Default ∧
            ∃ mid, read_setter_default_marker mid0 = PResult.ok mid () ∧
              mid = ';' :: ([] : List Char)) ∨
          (∃ mid, read_setter_expl_tail 20 nm mid0 = PResult.ok mid s ∧
            (((∃ b, s.block = NLEncapsulationBlock.Some b) ∧ ([] : List Char) = mid) ∨
             (s.block = NLEncapsulationBlock.None ∧ mid = ';' :: ([] : List Char)))))) :=
  ⟨claim_c5.1 20 _ [] _ rfl, claim_c5.2.1 20 _ [] _ rfl,
   claim_c5.2.2.1 20 _ [] _ rfl, claim_c5.2.2.2 20 _ [] _ rfl⟩

/- ### Claim C6 -/

/-- Claim C6 counterexample: `((1, 2), 3)` does not parse to the claimed
nested two-element tuple; the slice runs only to the first `)` (nesting is
not respected), the inside `(1, 2` parses as zero operations, and the
result is an empty tuple with `, 3)` left unconsumed. -/
theorem claim_c6_counterexample :
    read_tuple 20 ((r"((1, 2), 3)").toList) =
      PResult.ok ((r", 3)").toList) (NLOperation.Tuple []) ∧
    claim_c6_shape (NLOperation.Tuple []) = false :=
  ⟨rfl, rfl⟩

/-- Claim C6, amended: the tuple parser slices the region between `(` and
the first following `)` — nesting is not respected — and parses
comma-separated operations with an optional untrailed final element inside
it.  `()` yields an empty tuple and `(1, 2)` a two-element tuple, but the
nested `((1, 2), 3)` yields an empty tuple with `, 3)` left unconsumed. -/
theorem claim_c6_amended :
    read_tuple 20 ((r"()").toList) = PResult.ok [] (NLOperation.Tuple []) ∧
    read_tuple 20 ((r"(1, 2)").toList) =
      PResult.ok [] (NLOperation.Tuple
        [NLOperation.Constant (OpConstant.Integer 1 NLType.None),
         NLOperation.Constant (OpConstant.Integer 2 NLType.None)]) ∧
    read_tuple 20 ((r"((1, 2), 3)").toList) =
      PResult.ok ((r", 3)").toList) (NLOperation.Tuple []) :=
  ⟨rfl, rfl, rfl⟩

/- ### Claim C7, counterexample part -/

/-- Claim C7 counterexample: on the input `"ab\"cd"` the string constant
ends at the first `"` after the backslash — the contents are `ab\`, not
the claimed `ab\"cd`, and `cd"` remains unconsumed. -/
theorem claim_c7_counterexample :
    read_string_constant ['"', 'a', 'b', '\\', '"', 'c', 'd', '"'] =
      PResult.ok ['c', 'd', '"'] (OpConstant.String ['a', 'b', '\\']) ∧
    (['a', 'b', '\\'] : List Char) ≠ ['a', 'b', '\\', '"', 'c', 'd'] :=
  ⟨rfl, by decide⟩

/-- Claim C7, amended: a string literal's contents are exactly the
characters between the opening quote and the FIRST following double quote,
stored verbatim with no escape substitution — a backslash does not escape
a quote, so `"ab\"cd"` yields the contents `ab\` with `cd"` left
unconsumed (see the counterexample). -/
theorem claim_c7_amended :
    ∀ s rest : List Char, s.all (fun c => c != '"') = true →
      read_string_constant ('"' :: (s ++ '"' :: rest)) =
        PResult.ok rest (OpConstant.String s) := by
  intro s rest h
  have hb : blank ('"' :: (s ++ '"' :: rest)) = .ok ('"' :: (s ++ '"' :: rest)) () :=
    blank_cons_of rfl rfl
  have ht : (s ++ '"' :: rest).takeWhile (fun c => c != '"') = s := by
    rw [takeWhile_append_all h]
    simp
  have hd : (s ++ '"' :: rest).dropWhile (fun c => c != '"') = '"' :: rest := by
    rw [dropWhile_append_all h]
    simp
  unfold read_string_constant pdelimited
  simp [hb, pbind, pchar, ptake_while, ht, hd]

/-- Witness for C7 on the literal `"a"z`. -/
theorem claim_c7_amended_witness :
    read_string_constant ('"' :: (['a'] ++ '"' :: ['z'])) =
      PResult.ok ['z'] (OpConstant.String ['a']) :=
  claim_c7_amended ['a'] ['z'] rfl

/- ### Claim C8, counterexample part -/

/-- Claim C8 counterexample: the struct/trait name recognizer rejects
`_x` (underscore is not accepted) and accepts `x1` whole (digits are
accepted), contradicting the claimed letters-and-underscore alphabet. -/
theorem claim_c8_counterexample :
    read_struct_or_trait_name ['_', 'x'] = PResult.err ∧
    read_struct_or_trait_name ['x', '1'] = PResult.ok [] ['x', '1'] :=
  ⟨rfl, rfl⟩

theorem is_alphanumeric_not_multispace {c : Char} (h : is_alphanumeric_ascii c = true) :
    is_multispace c = false := by
  cases hm : is_multispace c
  · rfl
  · exfalso
    simp only [is_alphanumeric_ascii, is_alpha_ascii, is_digit_ascii, Bool.or_eq_true,
      Bool.and_eq_true, decide_eq_true_eq] at h
    simp only [is_multispace, Bool.or_eq_true, decide_eq_true_eq] at hm
    omega

theorem is_alphanumeric_not_slash {c : Char} (h : is_alphanumeric_ascii c = true) :
    ('/' == c) = false := by
  rw [beq_eq_false_iff_ne]
  intro hh
  subst hh
  exact absurd h (by decide)

theorem is_method_char_not_multispace {c : Char} (h : is_method_char c = true) :
    is_multispace c = false := by
  cases hm : is_multispace c
  · rfl
  · exfalso
    simp only [is_method_char, Bool.or_eq_true, Bool.and_eq_true, decide_eq_true_eq] at h
    simp only [is_multispace, Bool.or_eq_true, decide_eq_true_eq] at hm
    omega

theorem is_method_char_not_slash {c : Char} (h : is_method_char c = true) :
    ('/' == c) = false := by
  rw [beq_eq_false_iff_ne]
  intro hh
  subst hh
  exact absurd h (by decide)

/-- Claim C8, amended: the struct/trait name recognizer accepts exactly
the non-empty ASCII alphanumeric tokens — digits are allowed and
underscore is not — while the method/variable name recognizer accepts
exactly the non-empty tokens of underscores and (byte-truncated)
alphanumeric characters, in any position including the first. -/
theorem claim_c8_amended :
    (∀ input rest nm, read_struct_or_trait_name input = PResult.ok rest nm →
       nm ≠ [] ∧ nm.all is_alphanumeric_ascii = true) ∧
    (∀ nm : List Char, nm ≠ [] → nm.all is_alphanumeric_ascii = true →
       read_struct_or_trait_name nm = PResult.ok [] nm) ∧
    (∀ input rest nm, read_method_name input = PResult.ok rest nm →
       nm ≠ [] ∧ nm.all is_method_char = true) ∧
    (∀ nm : List Char, nm ≠ [] → nm.all is_method_char = true →
       read_method_name nm = PResult.ok [] nm) := by
  refine ⟨?_, ?_, ?_, ?_⟩
  · intro input rest nm h
    unfold read_struct_or_trait_name pdelimited at h
    simp only [pbind_ok] at h
    obtain ⟨r1, u1, hb1, h⟩ := h
    obtain ⟨r2, nm2, hname, h⟩ := h
    obtain ⟨r3, u2, hb2, h⟩ := h
    cases h
    unfold alphanumeric1 ptake_while1 at hname
    split at hname
    · cases hname
    · rename_i hne
      cases hname
      refine ⟨?_, all_takeWhile _ _⟩
      intro hnil
      rw [hnil] at hne
      exact hne rfl
  · intro nm hne hall
    cases nm with
    | nil => exact absurd rfl hne
    | cons c t =>
      have hc : is_alphanumeric_ascii c = true := by
        simp only [List.all_cons, Bool.and_eq_true] at hall
        exact hall.1
      have hb := @blank_cons_of c t (is_alphanumeric_not_multispace hc)
        (is_alphanumeric_not_slash hc)
      unfold read_struct_or_trait_name pdelimited
      simp [hb, pbind, alphanumeric1, ptake_while1, takeWhile_all hall,
        dropWhile_all hall, blank_nil]
  · intro input rest nm h
    unfold read_method_name pdelimited at h
    simp only [pbind_ok] at h
    obtain ⟨r1, u1, hb1, h⟩ := h
    obtain ⟨r2, nm2, hname, h⟩ := h
    obtain ⟨r3, u2, hb2, h⟩ := h
    cases h
    unfold ptake_while1 at hname
    split at hname
    · cases hname
    · rename_i hne
      cases hname
      refine ⟨?_, all_takeWhile _ _⟩
      intro hnil
      rw [hnil] at hne
      exact hne rfl
  · intro nm hne hall
    cases nm with
    | nil => exact absurd rfl hne
    | cons c t =>
      have hc : is_method_char c = true := by
        simp only [List.all_cons, Bool.and_eq_true] at hall
        exact hall.1
      have hb := @blank_cons_of c t (is_method_char_not_multispace hc)
        (is_method_char_not_slash hc)
      unfold read_method_name pdelimited
      simp [hb, pbind, ptake_while1, takeWhile_all hall, dropWhile_all hall, blank_nil]

/-- Witness for C8: the digit-bearing struct name `A1` and the
digit-leading method name `1x` are both accepted. -/
theorem claim_c8_amended_witness :
    read_struct_or_trait_name ['A', '1'] = PResult.ok [] ['A', '1'] ∧
    read_method_name ['1', 'x'] = PResult.ok [] ['1', 'x'] :=
  ⟨claim_c8_amended.2.1 ['A', '1'] (by simp) rfl,
   claim_c8_amended.2.2.2 ['1', 'x'] (by simp) rfl⟩

/- ### Claim C9 -/

/-- Claim C9: for every well-formed single-element argument list and
single-element struct field list (well-formedness stated as: the element
parser succeeds cleanly in both the trailing-separator and the bare
context, and the element text opens no blank region and contains no `)`),
parsing with a single trailing comma before the closing delimiter yields
the same result — same arguments/fields and same remaining input — as
parsing without it. -/
theorem claim_c9 :
    (∀ (argstr rest : List Char) (arg : NLArgument),
       argstr.all (fun c => c != ')') = true →
       read_argument_declaration (argstr ++ [',']) = PResult.ok [','] arg →
       read_argument_declaration argstr = PResult.ok [] arg →
       (read_argument_deceleration_list ('(' :: (argstr ++ ',' :: ')' :: rest)) =
           PResult.ok rest [arg] ∧
        read_argument_deceleration_list ('(' :: (argstr ++ ')' :: rest)) =
           PResult.ok rest [arg])) ∧
    (∀ (fuel : Nat) (fieldstr : List Char) (v : NLStructVariable),
       blank (fieldstr ++ [',', '}']) = PResult.ok (fieldstr ++ [',', '}']) () →
       blank (fieldstr ++ ['}']) = PResult.ok (fieldstr ++ ['}']) () →
       read_struct_variable (fieldstr ++ [',', '}']) = PResult.ok [',', '}'] v →
       read_struct_variable (fieldstr ++ ['}']) = PResult.ok ['}'] v →
       (read_struct fuel
           ('s' :: 't' :: 'r' :: 'u' :: 'c' :: 't' :: ' ' :: 'S' :: '{' ::
             (fieldstr ++ [',', '}'])) =
           PResult.ok [] (RootDeceleration.Struct (NLStruct.mk ['S'] [v] [])) ∧
        read_struct fuel
           ('s' :: 't' :: 'r' :: 'u' :: 'c' :: 't' :: ' ' :: 'S' :: '{' ::
             (fieldstr ++ ['}'])) =
           PResult.ok [] (RootDeceleration.Struct (NLStruct.mk ['S'] [v] [])))) := by
  constructor
  · intro argstr rest arg hnp h1 h2
    have htake : (argstr ++ ',' :: ')' :: rest).takeWhile (fun c => c != ')') =
        argstr ++ [','] := by
      rw [takeWhile_append_all hnp]
      simp +decide [List.takeWhile_cons]
    have hdrop : (argstr ++ ',' :: ')' :: rest).dropWhile (fun c => c != ')') =
        ')' :: rest := by
      rw [dropWhile_append_all hnp]
      simp +decide [List.dropWhile_cons]
    have htake2 : (argstr ++ ')' :: rest).takeWhile (fun c => c != ')') = argstr := by
      rw [takeWhile_append_all hnp]
      simp +decide [List.takeWhile_cons]
    have hdrop2 : (argstr ++ ')' :: rest).dropWhile (fun c => c != ')') = ')' :: rest := by
      rw [dropWhile_append_all hnp]
      simp +decide [List.dropWhile_cons]
    have hp1 : pterminated read_argument_declaration (pchar ',') (argstr ++ [',']) =
        PResult.ok [] arg := by
      unfold pterminated
      rw [h1]
      rfl
    have hp2 : pterminated read_argument_declaration (pchar ',') ([] : List Char) =
        PResult.err := rfl
    have hm1 : pmany0 (pterminated read_argument_declaration (pchar ','))
        (argstr ++ [',']) = PResult.ok [] [arg] := by
      unfold pmany0
      rw [show (argstr ++ [',']).length + 1 = argstr.length + 1 + 1 from by simp]
      simp [pmany0_go, hp1, hp2]
    have hp3 : pterminated read_argument_declaration (pchar ',') argstr =
        PResult.err := by
      unfold pterminated
      rw [h2]
      rfl
    have hm2 : pmany0 (pterminated read_argument_declaration (pchar ',')) argstr =
        PResult.ok argstr [] := by
      unfold pmany0
      simp [pmany0_go, hp3]
    have hq1 : popt (pterminated read_argument_declaration blank) ([] : List Char) =
        PResult.ok [] none := rfl
    have hq2 : popt (pterminated read_argument_declaration blank) argstr =
        PResult.ok [] (some arg) := by
      unfold popt pterminated
      rw [h2]
      rfl
    constructor
    · unfold read_argument_deceleration_list pdelimited
      simp [pchar, pbind, ptake_while, htake, hdrop, hm1, hq1]
    · unfold read_argument_deceleration_list pdelimited
      simp [pchar, pbind, ptake_while, htake2, hdrop2, hm2, hq2]
  · intro fuel fieldstr v hb1 hb2 hv1 hv2
    have hpre : ∀ inner : List Char,
        read_struct_or_trait_name ('S' :: '{' :: inner) =
          PResult.ok ('{' :: inner) ['S'] := by
      intro inner
      have b1 : blank ('S' :: '{' :: inner) = .ok ('S' :: '{' :: inner) () :=
        blank_cons_of rfl rfl
      have b2 : blank ('{' :: inner) = .ok ('{' :: inner) () := blank_cons_of rfl rfl
      unfold read_struct_or_trait_name pdelimited
      simp +decide [b1, b2, pbind, alphanumeric1, ptake_while1, List.takeWhile_cons,
        List.dropWhile_cons]
    have hsv : read_struct_variable ['}'] = PResult.err := rfl
    have himpl : pmany0 (read_implementation fuel) ([] : List Char) =
        PResult.ok [] [] := by
      have hi : read_implementation fuel [] = PResult.err := rfl
      unfold pmany0
      simp [pmany0_go, hi]
    have hblank2 : ∀ inner : List Char, blank ('{' :: inner) = .ok ('{' :: inner) () :=
      fun inner => blank_cons_of rfl rfl
    have hblank0 : ∀ inner : List Char,
        blank ('s' :: 't' :: 'r' :: 'u' :: 'c' :: 't' :: ' ' :: 'S' :: '{' :: inner) =
          .ok ('s' :: 't' :: 'r' :: 'u' :: 'c' :: 't' :: ' ' :: 'S' :: '{' :: inner) () :=
      fun inner => blank_cons_of rfl rfl
    have htag : ∀ inner : List Char,
        ptag ['s', 't', 'r', 'u', 'c', 't']
          ('s' :: 't' :: 'r' :: 'u' :: 'c' :: 't' :: ' ' :: 'S' :: '{' :: inner) =
          PResult.ok (' ' :: 'S' :: '{' :: inner) ['s', 't', 'r', 'u', 'c', 't'] := by
      intro inner
      simp +decide [ptag, list_starts_with]
    have hblank1 : ∀ inner : List Char,
        blank (' ' :: 'S' :: '{' :: inner) = .ok ('S' :: '{' :: inner) () := by
      intro inner
      have := @blank_ws [' '] 'S' ('{' :: inner) rfl rfl rfl
      simpa using this
    constructor
    · have hp1 : pterminated read_struct_variable struct_variable_separator
          (fieldstr ++ [',', '}']) = PResult.ok ['}'] v := by
        unfold pterminated
        rw [hv1]
        rfl
      have hp2 : pterminated read_struct_variable struct_variable_separator ['}'] =
          PResult.err := rfl
      have hm1 : pmany0 (pterminated read_struct_variable struct_variable_separator)
          (fieldstr ++ [',', '}']) = PResult.ok ['}'] [v] := by
        unfold pmany0
        rw [show (fieldstr ++ [',', '}']).length + 1 = fieldstr.length + 2 + 1 from
          by simp]
        simp +arith [pmany0_go, hp1, hp2]
      have hq1 : popt read_struct_variable ['}'] = PResult.ok ['}'] none := by
        unfold popt
        rw [hsv]
      unfold read_struct
      simp [hblank0, htag, hblank1, hpre, hblank2, pchar, pbind, hb1, hm1, hq1,
        @blank_cons_of '}' [] rfl rfl, himpl]
    · have hp3 : pterminated read_struct_variable struct_variable_separator
          (fieldstr ++ ['}']) = PResult.err := by
        unfold pterminated
        rw [hv2]
        rfl
      have hm2 : pmany0 (pterminated read_struct_variable struct_variable_separator)
          (fieldstr ++ ['}']) = PResult.ok (fieldstr ++ ['}']) [] := by
        unfold pmany0
        simp [pmany0_go, hp3]
      have hq : popt read_struct_variable (fieldstr ++ ['}']) =
          PResult.ok ['}'] (some v) := by
        unfold popt
        rw [hv2]
      unfold read_struct
      simp [hblank0, htag, hblank1, hpre, hblank2, pchar, pbind, hb2, hm2, hq,
        @blank_cons_of '}' [] rfl rfl, himpl]

/-- Witness for C9: argument `a: i32` and field `x: f64`. -/
theorem claim_c9_witness :
    (read_argument_deceleration_list
        ('(' :: (('a' :: ':' :: ' ' :: 'i' :: '3' :: '2' :: []) ++ ',' :: ')' :: [])) =
        PResult.ok [] [NLArgument.mk ['a'] NLType.I32] ∧
     read_argument_deceleration_list
        ('(' :: (('a' :: ':' :: ' ' :: 'i' :: '3' :: '2' :: []) ++ ')' :: [])) =
        PResult.ok [] [NLArgument.mk ['a'] NLType.I32]) ∧
    (read_struct 20
        ('s' :: 't' :: 'r' :: 'u' :: 'c' :: 't' :: ' ' :: 'S' :: '{' ::
          (('x' :: ':' :: ' ' :: 'f' :: '6' :: '4' :: []) ++ [',', '}'])) =
        PResult.ok [] (RootDeceleration.Struct
          (NLStruct.mk ['S'] [NLStructVariable.mk ['x'] NLType.F64] [])) ∧
     read_struct 20
        ('s' :: 't' :: 'r' :: 'u' :: 'c' :: 't' :: ' ' :: 'S' :: '{' ::
          (('x' :: ':' :: ' ' :: 'f' :: '6' :: '4' :: []) ++ ['}'])) =
        PResult.ok [] (RootDeceleration.Struct
          (NLStruct.mk ['S'] [NLStructVariable.mk ['x'] NLType.F64] []))) :=
  ⟨claim_c9.1 ('a' :: ':' :: ' ' :: 'i' :: '3' :: '2' :: []) [] (NLArgument.mk ['a'] NLType.I32)
      (by decide) rfl rfl,
   claim_c9.2 20 ('x' :: ':' :: ' ' :: 'f' :: '6' :: '4' :: [])
      (NLStructVariable.mk ['x'] NLType.F64) rfl rfl rfl rfl⟩

/- ### Claim C10 -/

/-- Claim C10 counterexample: the variable-type parser does produce the
borrowed-string variant — on `string` the keyword match fails (the
alphanumeric token is `string`), but `tag("str")` then matches a prefix,
yielding `BorrowedString` with `ing` left unconsumed. -/
theorem claim_c10_counterexample :
    read_variable_type ((r"string").toList) =
      PResult.ok ((r"ing").toList) NLType.BorrowedString := rfl

/-- Claim C10, amended: `&str` parses as an immutably referenced struct
named `str` (the leading `&` is not consumed before the `str` keyword can
be matched, and bare `str` is the owned string), but the borrowed-string
branch is reachable: any non-keyword alphanumeric token starting with
`str`, such as `string`, yields `BorrowedString`, consuming only the
`str` prefix. -/
theorem claim_c10_amended :
    read_variable_type ((r"&str").toList) =
      PResult.ok [] (NLType.ReferencedStruct (r"str").toList) ∧
    read_variable_type ((r"str").toList) = PResult.ok [] NLType.OwnedString ∧
    read_variable_type ((r"string").toList) =
      PResult.ok ((r"ing").toList) NLType.BorrowedString :=
  ⟨rfl, rfl, rfl⟩

end NLang
